import Mathlib

/-!
Verification of `nnsight`'s `AbstractModel` (src/nnsight/models/AbstractModel.py).

The development shallowly embeds the control flow of `AbstractModel.__init__`,
`AbstractModel.__call__` and `AbstractModel.modulize` as execution traces
(lists of steps), and the small amount of state these methods manipulate
(`dispatched`, `local_model` parameters, the recorded `edits` list, the
graph's iteration counter) as explicit functional state.

Python `with`-statement semantics is modelled faithfully: the `__exit__` of a
context manager runs both on normal completion of its block and when an
exception propagates out of the block, while plain statements after the point
of a raise are skipped.  Collaborators whose code is not part of the surveyed
sources (`Editor`, `HookModel`, `Graph.increment`, `Module.wrap`) are modelled
from the specification; each such definition says so in its doc comment.
-/

set_option autoImplicit false

namespace NNSight

/-- A tensor: either real data on a concrete device, or a shape-only
placeholder on the `meta` device. -/
inductive Tensor
  | real (data : Int) (shape : List Nat)
  | meta (shape : List Nat)
  deriving DecidableEq

/-- Whether a tensor lives on the `meta` device. -/
def Tensor.isMeta : Tensor → Bool
  | .real _ _ => false
  | .meta _ => true

/-- Python `.to("meta")` on one tensor (under `accelerate.init_empty_weights`):
the data is dropped, only the shape is kept. -/
def Tensor.toMeta : Tensor → Tensor
  | .real _ s => .meta s
  | .meta s => .meta s

/-- A model parameter as seen by the freeze loop of `__call__`
(lines 147–149): only its `requires_grad` flag matters. -/
structure Param where
  requires_grad : Bool
  deriving DecidableEq

/-- The intervention graph, with the fields `AbstractModel` reads or writes:
`argument_node_names` (a dict, embedded as an association list whose keys are
the dict's keys) and the iteration counter advanced by `increment`. -/
structure Graph where
  nodes : List String
  argument_node_names : List (String × List String)
  iteration_counter : Nat
  deriving DecidableEq

/-- Modelled from the spec: `increment()` "advances `iteration_counter` by 1"
(`Graph.increment` itself is outside the surveyed sources). -/
def Graph.increment (g : Graph) : Graph :=
  { g with iteration_counter := g.iteration_counter + 1 }

/-- The body of the lambda registered at `__call__` lines 156–158:
`lambda module, input, output: graph.increment()`. -/
def incrementHookBody (g : Graph) (_module _inp _out : Unit) : Graph :=
  g.increment

/-- Python `".".join(name.split(".")[:-2])` from `__call__` line 164. -/
def moduleOfArgumentName (name : String) : String :=
  String.intercalate "." ((name.splitOn ".").dropLast.dropLast)

/-- The `modules` set built at `__call__` lines 162–167: the comprehension
mapped over `graph.argument_node_names.keys()`, collected into a set
(embedded as deduplication, since `list(set(...))` is an order-free list of
the distinct elements). -/
def callModules (g : Graph) : List String :=
  ((g.argument_node_names.map Prod.fst).map moduleOfArgumentName).dedup

/-- Direction of an observation point. -/
inductive Direction
  | input
  | output
  deriving DecidableEq

/-- The arguments `__call__` hands to `HookModel` (lines 178–187): the module
list and the two hook closures. `Act` is the type of activations. -/
structure HookConfig (Act : Type) where
  modules : List String
  input_hook : Act → String → Act
  output_hook : Act → String → Act

/-- The `HookModel` construction at `__call__` lines 178–187, parameterized
over the `intervene` function (imported from `..intervention`, outside the
surveyed sources) that the two lambdas close over. -/
def callHookConfig {Act : Type} (intervene : Act → String → Graph → Direction → Act)
    (g : Graph) : HookConfig Act :=
  { modules := callModules g
    input_hook := fun activations module_path =>
      intervene activations module_path g Direction.input
    output_hook := fun activations module_path =>
      intervene activations module_path g Direction.output }

/-- A structural edit: the two concrete variants `modulize` creates, a
`WrapperModuleEdit` (parent path and new submodule name) and a `GraphEdit`
(module path and an identifier for the attached graph). -/
inductive Edit
  | wrapper (module_path module_name : String)
  | graph (module_path : String) (gid : Nat)
  deriving DecidableEq

/-- One observable step of `AbstractModel.__call__`.  Each step records the
invocation of the corresponding operation in the Python source. -/
inductive Step
  | load_local
  | freeze_params
  | set_dispatched
  | editor_apply (edits : List Edit)
  | register_increment_hook
  | compile_graph
  | set_mode (inference : Bool)
  | prepare_inputs
  | hooks_attach (modules : List String)
  | run_fn
  | hooks_detach
  | remove_increment_hook
  | set_eval
  | editor_revert (edits : List Edit)
  deriving DecidableEq

/-- How one execution of `__call__` ends: normally, with `graph.compile`
raising, or with `fn` raising mid-execution. -/
inductive Outcome
  | ok
  | compile_raises
  | fn_raises
  deriving DecidableEq

/-- Lines 140–151 of `__call__`: when not yet dispatched, load the local
model, freeze its parameters and set `dispatched`. -/
def dispatchSteps (dispatched : Bool) : List Step :=
  if dispatched then []
  else [Step.load_local, Step.freeze_params, Step.set_dispatched]

/-- The steps of the `Editor` block after `graph.compile` (lines 173–192).
When `compile` raises nothing after it runs; when `fn` raises, the
`HookModel` context still detaches its hooks on unwind (modelled from the
spec: `end` "must be safe to call even if the host execution raised"), but
the plain statement `increment_hook.remove()` on line 190 is skipped. -/
def afterCompile (g : Graph) (inference : Bool) : Outcome → List Step
  | .compile_raises => []
  | .fn_raises =>
      [Step.set_mode inference, Step.prepare_inputs,
       Step.hooks_attach (callModules g), Step.run_fn, Step.hooks_detach]
  | .ok =>
      [Step.set_mode inference, Step.prepare_inputs,
       Step.hooks_attach (callModules g), Step.run_fn, Step.hooks_detach,
       Step.remove_increment_hook, Step.set_eval]

/-- The body of the `with Editor(...)` block (lines 154–194): register the
increment hook, invoke `graph.compile`, then the rest as the outcome allows. -/
def editorBody (g : Graph) (inference : Bool) (o : Outcome) : List Step :=
  Step.register_increment_hook :: Step.compile_graph :: afterCompile g inference o

/-- The full trace of one execution of `AbstractModel.__call__`
(lines 137–196).  `editsArg` is the `edits` keyword argument (`none` is
Python's `None`, replaced by `self.edits` at lines 137–138).  The `Editor`
context applies the edits on entry and reverts them on exit; the revert runs
on every outcome because Python runs `__exit__` when an exception propagates
out of the block (the `Editor`'s apply/revert behavior itself is modelled
from the spec: "on exit (normal or exceptional), reverts them"). -/
def callTrace (dispatched : Bool) (editsArg : Option (List Edit))
    (selfEdits : List Edit) (g : Graph) (inference : Bool) (o : Outcome) :
    List Step :=
  let edits := editsArg.getD selfEdits
  dispatchSteps dispatched
    ++ Step.editor_apply edits :: (editorBody g inference o ++ [Step.editor_revert edits])

/-- `Precedes a b l`: some occurrence of `a` comes strictly before some
occurrence of `b` in `l`. -/
def Precedes {α : Type} (a b : α) (l : List α) : Prop :=
  ∃ l1 l2 l3, l = l1 ++ a :: (l2 ++ b :: l3)

/-- An empty graph, used to evaluate traces at concrete inputs. -/
def g0 : Graph :=
  { nodes := [], argument_node_names := [], iteration_counter := 0 }

/-! ### `AbstractModel.__init__` (lines 41–98) -/

/-- One observable step of `AbstractModel.__init__`.  `Input` is the type of
model inputs.  `run_host` stands for any real execution of the local model;
`__init__` never performs one. -/
inductive InitStep (Input : Type)
  | set_fields
  | build_meta_model (custom : Bool)
  | wrap_child (name : String)
  | assign_module_path (name : String)
  | scan_pass (inputs : Input)
  | load_local_model
  | run_host
  deriving DecidableEq

/-- Whether a step is the shape-inference pass. -/
def InitStep.isScan {Input : Type} : InitStep Input → Bool
  | .scan_pass _ => true
  | _ => false

/-- Whether a step loads or really executes the local model. -/
def InitStep.isHostWork {Input : Type} : InitStep Input → Bool
  | .load_local_model => true
  | .run_host => true
  | _ => false

/-- The trace of `AbstractModel.__init__`: set the attribute fields, build the
meta model (lines 71–83), wrap each named child (lines 86–89), assign each
named module its `module_path` (lines 92–93), then run `_scan` on the
prepared example input (line 96).  `children` and `modules` are the names
enumerated by `named_children()` and `named_modules()`, and `prepared` is
`self._prepare_inputs(self._example_input())`. -/
def initTrace (Input : Type) (custom : Bool) (children modules : List String)
    (prepared : Input) : List (InitStep Input) :=
  InitStep.set_fields :: InitStep.build_meta_model custom
    :: (children.map InitStep.wrap_child
        ++ modules.map InitStep.assign_module_path
        ++ [InitStep.scan_pass prepared])

/-- A host module as the constructor sees it: a bag of tensors plus the flag
recording whether `Module.wrap` has been applied to it. -/
structure TModel where
  tensors : List Tensor
  wrapped : Bool
  deriving DecidableEq

/-- Python `copy.deepcopy`: an independent structural copy; in this
value-semantics embedding it is the identity, and crucially the original is
referenced nowhere by what is built from the copy. -/
def deepcopy (m : TModel) : TModel := m

/-- Python `.to("meta")` on a whole module under
`accelerate.init_empty_weights(include_buffers=True)`: every tensor becomes a
meta placeholder. -/
def toMetaModel (m : TModel) : TModel :=
  { m with tensors := m.tensors.map Tensor.toMeta }

/-- Modelled from the spec: `Module.wrap` (outside the surveyed sources)
wraps a torch module to add interleaving functionality, leaving its tensors
untouched. -/
def moduleWrap (m : TModel) : TModel :=
  { m with wrapped := true }

/-- The model-level state `__init__` establishes. -/
structure ModelState where
  local_model : Option TModel
  meta_model : Option TModel
  dispatched : Bool
  custom_model : Bool
  deriving DecidableEq

/-- `__init__` on a user-supplied torch module `m` (the `custom_model`
branch, lines 62–66 and 74–77): `local_model` is set to `m` itself, and the
meta model is built from `copy.deepcopy(m).to("meta")` wrapped in `Module`. -/
def initCustom (m : TModel) : ModelState :=
  { local_model := some m
    meta_model := some (moduleWrap (toMetaModel (deepcopy m)))
    dispatched := true
    custom_model := true }

/-- `__init__` on a repo id or checkpoint path (lines 55–59 and 78–83):
nothing is dispatched, and the meta model is built from `_load_meta`'s
result sent to the meta device.  `loaded` is what `_load_meta` returns. -/
def initFromRepo (loaded : TModel) : ModelState :=
  { local_model := none
    meta_model := some (moduleWrap (toMetaModel loaded))
    dispatched := false
    custom_model := false }

/-- The tensors of the meta model, empty when none was built. -/
def ModelState.metaTensors (s : ModelState) : List Tensor :=
  match s.meta_model with
  | some m => m.tensors
  | none => []

/-! ### Dispatch-and-freeze state of `__call__` (lines 140–151) -/

/-- The freeze loop at `__call__` lines 147–149: set `requires_grad = False`
on every parameter `_load_local` returned. -/
def freezeParams (ps : List Param) : List Param :=
  ps.map (fun p => { p with requires_grad := false })

/-- The dispatch state one `AbstractModel` instance carries across calls. -/
structure CallState where
  dispatched : Bool
  load_count : Nat
  local_params : List Param
  deriving DecidableEq

/-- The state after `__init__`: a custom model arrives already dispatched
with its own parameters, a repo id leaves `local_model` unloaded.
`load_count` counts the invocations of `_load_local`. -/
def initCallState (custom : Bool) (initial : List Param) : CallState :=
  { dispatched := custom
    load_count := 0
    local_params := if custom then initial else [] }

/-- Lines 140–151 of `__call__`: when not dispatched, `_load_local` the model
(its parameters being `loaded`), freeze all its parameters, and set
`dispatched`; otherwise do nothing. -/
def dispatchIfNeeded (loaded : List Param) (s : CallState) : CallState :=
  if s.dispatched then s
  else { dispatched := true
         load_count := s.load_count + 1
         local_params := freezeParams loaded }

/-- `n` successive invocations of `__call__`, tracking only the dispatch
state (`loaded` is what `_load_local` would return). -/
def runCalls (loaded : List Param) (s : CallState) : Nat → CallState
  | 0 => s
  | n + 1 => runCalls loaded (dispatchIfNeeded loaded s) n

/-! ### `AbstractModel.modulize` (lines 253–286) -/

/-- One observable step of `modulize`. -/
inductive MStep
  | apply_edit (e : Edit)
  | add_graph_nodes
  | append_edit (e : Edit)
  deriving DecidableEq

/-- The `WrapperModuleEdit` `modulize` creates at line 263 for a module at
`module_path` and a new submodule name. -/
def wmeFor (module_path module_name : String) : Edit :=
  Edit.wrapper module_path module_name

/-- The `GraphEdit` `modulize` creates at line 281. -/
def geFor (module_path : String) (gid : Nat) : Edit :=
  Edit.graph module_path gid

/-- The trace of `modulize` (lines 262–286): apply the wrapper edit to the
meta model (line 270), add the proxy nodes to the module's graph
(lines 277–278), apply the graph edit to the meta model (line 282), then
append both edits to `self.edits` (lines 285–286). -/
def modulizeTrace (module_path module_name : String) (gid : Nat) : List MStep :=
  [ MStep.apply_edit (wmeFor module_path module_name)
  , MStep.add_graph_nodes
  , MStep.apply_edit (geFor module_path gid)
  , MStep.append_edit (wmeFor module_path module_name)
  , MStep.append_edit (geFor module_path gid) ]

/-- `self.edits` after `modulize` (lines 285–286). -/
def modulizeEdits (edits : List Edit) (module_path module_name : String)
    (gid : Nat) : List Edit :=
  edits ++ [wmeFor module_path module_name, geFor module_path gid]

/-! ### Spec-side definitions, for comparison with the embedded source -/

/-- The spec's description of the module computation, written independently
of the source's `split`/slice/`join` idiom: the key with its last two
dot-separated components dropped. -/
def specDropLastTwo (name : String) : String :=
  let parts := name.splitOn "."
  String.intercalate "." (parts.take (parts.length - 2))

/-- Whether a step builds the meta model. -/
def InitStep.isBuildMeta {Input : Type} : InitStep Input → Bool
  | .build_meta_model _ => true
  | _ => false

/-- The invariant `__call__`'s dispatch logic maintains: `_load_local` has
run at most once, and not at all while undispatched. -/
def DispatchInv (s : CallState) : Prop :=
  s.load_count ≤ 1 ∧ (s.dispatched = false → s.load_count = 0)

/-! ### Helper lemmas -/

theorem dropLast_dropLast {α : Type} (l : List α) :
    l.dropLast.dropLast = l.take (l.length - 2) := by
  simp [List.dropLast_eq_take, List.take_take, List.length_take]
  omega

theorem isMeta_toMeta (t : Tensor) : t.toMeta.isMeta = true := by
  cases t <;> rfl

theorem dispatchIfNeeded_inv (loaded : List Param) (s : CallState)
    (h : DispatchInv s) : DispatchInv (dispatchIfNeeded loaded s) := by
  unfold DispatchInv dispatchIfNeeded
  cases hd : s.dispatched with
  | true => simpa [DispatchInv, hd] using h
  | false =>
      have h0 : s.load_count = 0 := h.2 hd
      simp [hd, h0]

theorem runCalls_inv (loaded : List Param) (s : CallState) (n : Nat)
    (h : DispatchInv s) : DispatchInv (runCalls loaded s n) := by
  induction n generalizing s with
  | zero => exact h
  | succ n ih => exact ih _ (dispatchIfNeeded_inv loaded s h)

theorem dispatchIfNeeded_of_dispatched (loaded : List Param) (s : CallState)
    (h : s.dispatched = true) : dispatchIfNeeded loaded s = s := by
  simp [dispatchIfNeeded, h]

theorem runCalls_of_dispatched (loaded : List Param) (s : CallState) (n : Nat)
    (h : s.dispatched = true) : runCalls loaded s n = s := by
  induction n with
  | zero => rfl
  | succ n ih =>
      show runCalls loaded (dispatchIfNeeded loaded s) n = s
      rw [dispatchIfNeeded_of_dispatched loaded s h]
      exact ih

theorem runCalls_dispatched_mono (loaded : List Param) (s : CallState)
    (n : Nat) (h : s.dispatched = true) :
    (runCalls loaded s n).dispatched = true := by
  rw [runCalls_of_dispatched loaded s n h]
  exact h

theorem countP_map_false {α β : Type} (f : α → β) (p : β → Bool)
    (h : ∀ a, p (f a) = false) (l : List α) : (l.map f).countP p = 0 := by
  induction l with
  | nil => rfl
  | cons a l ih => simp [List.countP_cons, h, ih]

/-! ### The claims -/

/-- Claim C1 (code bug): on the exit path where `fn` raises mid-execution,
the increment hook registered at the start of the run is NOT removed before
`__call__` finishes: `increment_hook.remove()` (line 190) is a plain
statement after the `HookModel` block, not a `finally` clause, so it is
skipped while the exception unwinds, although the hook is removed on the
normal path.  This contradicts the spec's guarantee of "removal on every
exit path including exceptions". -/
theorem C1_increment_hook_leaked_on_fn_exception :
    Step.register_increment_hook ∈ callTrace true none [] g0 true Outcome.fn_raises
    ∧ Step.remove_increment_hook ∉ callTrace true none [] g0 true Outcome.fn_raises
    ∧ Step.remove_increment_hook ∈ callTrace true none [] g0 true Outcome.ok := by
  decide

/-- Claim C4: the module paths handed to `HookModel` are exactly, as a set,
the keys of `graph.argument_node_names` with their last two dot-separated
components dropped, and the installed input and output hooks call
`intervene` on the activations, the module path, the graph, and the
matching direction. -/
theorem C4_hook_model_arguments {Act : Type}
    (intervene : Act → String → Graph → Direction → Act) (g : Graph) :
    (callHookConfig intervene g).modules.toFinset
        = ((g.argument_node_names.map Prod.fst).map specDropLastTwo).toFinset
    ∧ (callHookConfig intervene g).input_hook
        = (fun activations module_path =>
            intervene activations module_path g Direction.input)
    ∧ (callHookConfig intervene g).output_hook
        = (fun activations module_path =>
            intervene activations module_path g Direction.output) := by
  refine ⟨?_, rfl, rfl⟩
  have hfun : moduleOfArgumentName = specDropLastTwo := by
    funext name
    unfold moduleOfArgumentName specDropLastTwo
    rw [dropLast_dropLast]
  show (callModules g).toFinset = _
  unfold callModules
  rw [hfun]
  ext a
  simp [List.mem_dedup]

/-- Claim C5: each firing of the increment hook performs exactly one
`graph.increment()` — the iteration counter advances by exactly one — and
changes nothing else of the graph. -/
theorem C5_increment_hook_only_increments (g : Graph) (m i o : Unit) :
    (incrementHookBody g m i o).iteration_counter = g.iteration_counter + 1
    ∧ (incrementHookBody g m i o).nodes = g.nodes
    ∧ (incrementHookBody g m i o).argument_node_names = g.argument_node_names :=
  ⟨rfl, rfl, rfl⟩

/-- Claim C9: across the lifetime of one instance `_load_local` runs at most
once; an instance built from a user-supplied module (already dispatched in
`__init__`) never loads at all; `dispatched`, once true, stays true across
any further calls; and on an instance built from a repo id or path the
first `__call__` does invoke `_load_local` — the load count becomes exactly
one — and sets `dispatched` to true, so every subsequent call skips
loading. -/
theorem C9_dispatch_at_most_once (loaded initial : List Param)
    (custom : Bool) (n m : Nat) :
    (runCalls loaded (initCallState custom initial) n).load_count ≤ 1
    ∧ (custom = true →
        (runCalls loaded (initCallState custom initial) n).load_count = 0)
    ∧ ((runCalls loaded (initCallState custom initial) n).dispatched = true →
        (runCalls loaded (runCalls loaded (initCallState custom initial) n)
          m).dispatched = true)
    ∧ (custom = false →
        (runCalls loaded (initCallState custom initial) (n + 1)).load_count = 1
        ∧ (runCalls loaded (initCallState custom initial)
            (n + 1)).dispatched = true) := by
  refine ⟨?_, ?_, ?_, ?_⟩
  · refine (runCalls_inv loaded _ n ?_).1
    exact ⟨by simp [initCallState], fun _ => rfl⟩
  · intro hc
    subst hc
    rw [runCalls_of_dispatched loaded _ n rfl]
    rfl
  · intro hd
    exact runCalls_dispatched_mono loaded _ m hd
  · intro hc
    subst hc
    have hstep : dispatchIfNeeded loaded (initCallState false initial)
        = { dispatched := true, load_count := 1,
            local_params := freezeParams loaded } := by
      simp [dispatchIfNeeded, initCallState]
    have hrun : runCalls loaded (initCallState false initial) (n + 1)
        = { dispatched := true, load_count := 1,
            local_params := freezeParams loaded } := by
      show runCalls loaded
        (dispatchIfNeeded loaded (initCallState false initial)) n = _
      rw [hstep]
      exact runCalls_of_dispatched loaded _ n rfl
    rw [hrun]
    exact ⟨rfl, rfl⟩

/-- Witness for C9 at concrete inputs, exercising both the custom-model
branch and the repo-constructed branch. -/
theorem C9_dispatch_at_most_once_witness :
    (runCalls [⟨true⟩] (initCallState true [⟨true⟩]) 2).load_count = 0
    ∧ (runCalls [⟨true⟩] (runCalls [⟨true⟩] (initCallState true [⟨true⟩]) 2)
        3).dispatched = true
    ∧ (runCalls [⟨true⟩] (initCallState false []) 3).load_count = 1
    ∧ (runCalls [⟨true⟩] (initCallState false []) 3).dispatched = true :=
  ⟨(C9_dispatch_at_most_once [⟨true⟩] [⟨true⟩] true 2 3).2.1 rfl,
   (C9_dispatch_at_most_once [⟨true⟩] [⟨true⟩] true 2 3).2.2.1 (by decide),
   ((C9_dispatch_at_most_once [⟨true⟩] [] false 2 3).2.2.2 rfl).1,
   ((C9_dispatch_at_most_once [⟨true⟩] [] false 2 3).2.2.2 rfl).2⟩

/-- Claim C10: immediately after `__call__` dispatches the local model via
`_load_local`, every parameter of the local model has
`requires_grad = False`. -/
theorem C10_params_frozen_after_dispatch (loaded : List Param) (s : CallState)
    (h : s.dispatched = false) :
    (dispatchIfNeeded loaded s).local_params.all (fun p => !p.requires_grad) = true
    ∧ (dispatchIfNeeded loaded s).local_params = freezeParams loaded := by
  refine ⟨?_, by simp [dispatchIfNeeded, h]⟩
  simp [dispatchIfNeeded, h, freezeParams, List.all_map, Function.comp]

/-- Witness for C10 at a concrete input. -/
theorem C10_params_frozen_after_dispatch_witness :
    (dispatchIfNeeded [⟨true⟩, ⟨false⟩] (initCallState false [])).local_params.all
        (fun p => !p.requires_grad) = true
    ∧ (dispatchIfNeeded [⟨true⟩, ⟨false⟩]
        (initCallState false [])).local_params = freezeParams [⟨true⟩, ⟨false⟩] :=
  C10_params_frozen_after_dispatch [⟨true⟩, ⟨false⟩] (initCallState false []) rfl

/-- Claim C2: the effective edits (the `edits` argument, or the recorded
`self.edits` when the argument is `None`) are applied inside an `Editor`
scope that starts before graph compilation and the host run, and the
scope's revert is the final action of `__call__` on the normal path, on the
path where `fn` raises, and on the path where `compile` raises. -/
theorem C2_edits_scoped (d : Bool) (ea : Option (List Edit)) (se : List Edit)
    (g : Graph) (inf : Bool) (o : Outcome) :
    callTrace d none se g inf o = callTrace d (some se) se g inf o
    ∧ Precedes (Step.editor_apply (ea.getD se)) Step.compile_graph
        (callTrace d ea se g inf o)
    ∧ Precedes (Step.editor_apply (ea.getD se)) Step.run_fn
        (callTrace d ea se g inf Outcome.ok)
    ∧ Precedes Step.run_fn (Step.editor_revert (ea.getD se))
        (callTrace d ea se g inf Outcome.ok)
    ∧ Precedes Step.run_fn (Step.editor_revert (ea.getD se))
        (callTrace d ea se g inf Outcome.fn_raises)
    ∧ (callTrace d ea se g inf o).getLast?
        = some (Step.editor_revert (ea.getD se)) := by
  refine ⟨rfl, ?_, ?_, ?_, ?_, ?_⟩
  · exact ⟨dispatchSteps d, [Step.register_increment_hook],
      afterCompile g inf o ++ [Step.editor_revert (ea.getD se)], rfl⟩
  · exact ⟨dispatchSteps d,
      [Step.register_increment_hook, Step.compile_graph, Step.set_mode inf,
       Step.prepare_inputs, Step.hooks_attach (callModules g)],
      [Step.hooks_detach, Step.remove_increment_hook, Step.set_eval,
       Step.editor_revert (ea.getD se)], rfl⟩
  · refine ⟨dispatchSteps d ++
      [Step.editor_apply (ea.getD se), Step.register_increment_hook,
       Step.compile_graph, Step.set_mode inf, Step.prepare_inputs,
       Step.hooks_attach (callModules g)],
      [Step.hooks_detach, Step.remove_increment_hook, Step.set_eval], [], ?_⟩
    simp [callTrace, editorBody, afterCompile]
  · refine ⟨dispatchSteps d ++
      [Step.editor_apply (ea.getD se), Step.register_increment_hook,
       Step.compile_graph, Step.set_mode inf, Step.prepare_inputs,
       Step.hooks_attach (callModules g)],
      [Step.hooks_detach], [], ?_⟩
    simp [callTrace, editorBody, afterCompile]
  · have hshape : callTrace d ea se g inf o
        = (dispatchSteps d ++ Step.editor_apply (ea.getD se) :: editorBody g inf o)
            ++ [Step.editor_revert (ea.getD se)] := by
      simp [callTrace]
    rw [hshape, List.getLast?_concat]

/-- Claim C3 is refuted as stated: the increment hook — per the spec "a
degenerate Hook Manager entry" whose "lifecycle is identical to other
hooks", hence an observation hook — is registered on the local model
(line 156) strictly BEFORE `graph.compile` is invoked (line 171), so
compilation does not happen before every observation hook is attached. -/
theorem C3_hook_before_compile_counterexample :
    Precedes Step.register_increment_hook Step.compile_graph
      (callTrace true none [] g0 true Outcome.ok) :=
  ⟨[Step.editor_apply []], [],
   afterCompile g0 true Outcome.ok ++ [Step.editor_revert []], by decide⟩

/-- Claim C3 (amended): `graph.compile` is invoked strictly before `fn` runs
and strictly before the input/output observation hooks are attached by
`HookModel`, both on the normal path and on the path where `fn` raises; and
when `compile` itself raises, `fn` never runs and no `HookModel` hooks are
ever attached.  Only the increment hook is registered before `compile`. -/
theorem C3_compile_before_execution (d : Bool) (ea : Option (List Edit))
    (se : List Edit) (g : Graph) (inf : Bool) :
    Precedes Step.compile_graph (Step.hooks_attach (callModules g))
        (callTrace d ea se g inf Outcome.ok)
    ∧ Precedes Step.compile_graph Step.run_fn
        (callTrace d ea se g inf Outcome.ok)
    ∧ Precedes Step.compile_graph (Step.hooks_attach (callModules g))
        (callTrace d ea se g inf Outcome.fn_raises)
    ∧ Precedes Step.compile_graph Step.run_fn
        (callTrace d ea se g inf Outcome.fn_raises)
    ∧ Step.run_fn ∉ callTrace d ea se g inf Outcome.compile_raises
    ∧ ∀ ms : List String,
        Step.hooks_attach ms ∉ callTrace d ea se g inf Outcome.compile_raises := by
  refine ⟨?_, ?_, ?_, ?_, ?_, ?_⟩
  · refine ⟨dispatchSteps d ++
      [Step.editor_apply (ea.getD se), Step.register_increment_hook],
      [Step.set_mode inf, Step.prepare_inputs],
      [Step.run_fn, Step.hooks_detach, Step.remove_increment_hook,
       Step.set_eval, Step.editor_revert (ea.getD se)], ?_⟩
    simp [callTrace, editorBody, afterCompile]
  · refine ⟨dispatchSteps d ++
      [Step.editor_apply (ea.getD se), Step.register_increment_hook],
      [Step.set_mode inf, Step.prepare_inputs, Step.hooks_attach (callModules g)],
      [Step.hooks_detach, Step.remove_increment_hook, Step.set_eval,
       Step.editor_revert (ea.getD se)], ?_⟩
    simp [callTrace, editorBody, afterCompile]
  · refine ⟨dispatchSteps d ++
      [Step.editor_apply (ea.getD se), Step.register_increment_hook],
      [Step.set_mode inf, Step.prepare_inputs],
      [Step.run_fn, Step.hooks_detach, Step.editor_revert (ea.getD se)], ?_⟩
    simp [callTrace, editorBody, afterCompile]
  · refine ⟨dispatchSteps d ++
      [Step.editor_apply (ea.getD se), Step.register_increment_hook],
      [Step.set_mode inf, Step.prepare_inputs, Step.hooks_attach (callModules g)],
      [Step.hooks_detach, Step.editor_revert (ea.getD se)], ?_⟩
    simp [callTrace, editorBody, afterCompile]
  · cases d <;> simp [callTrace, editorBody, afterCompile, dispatchSteps]
  · intro ms
    cases d <;> simp [callTrace, editorBody, afterCompile, dispatchSteps]

/-- Claim C6: during `__init__` the shape-inference pass `_scan` runs
exactly once, as the final step — after the meta model is built, its
children wrapped and every module's `module_path` assigned — with the
prepared example input as its argument, and `__init__` neither loads nor
really executes the local model. -/
theorem C6_scan_runs_exactly_once (Input : Type) (custom : Bool)
    (children modules : List String) (prepared : Input) :
    (initTrace Input custom children modules prepared).countP InitStep.isScan = 1
    ∧ (initTrace Input custom children modules prepared).getLast?
        = some (InitStep.scan_pass prepared)
    ∧ (initTrace Input custom children modules prepared).countP
        InitStep.isHostWork = 0 := by
  refine ⟨?_, ?_, ?_⟩
  · simp [initTrace, List.countP_append, List.countP_cons, InitStep.isScan,
      countP_map_false InitStep.wrap_child InitStep.isScan (fun _ => rfl),
      countP_map_false InitStep.assign_module_path InitStep.isScan (fun _ => rfl)]
  · have hshape : initTrace Input custom children modules prepared
        = (InitStep.set_fields :: InitStep.build_meta_model custom
            :: (children.map InitStep.wrap_child
                ++ modules.map InitStep.assign_module_path))
          ++ [InitStep.scan_pass prepared] := by
      simp [initTrace]
    rw [hshape, List.getLast?_concat]
  · simp [initTrace, List.countP_append, List.countP_cons, InitStep.isHostWork,
      countP_map_false InitStep.wrap_child InitStep.isHostWork (fun _ => rfl),
      countP_map_false InitStep.assign_module_path InitStep.isHostWork
        (fun _ => rfl)]

/-- Claim C7: the meta model is built exactly once during `__init__`, with
every tensor on the meta device, in both constructor branches; and the
custom-model branch builds it from a deep copy, leaving the user-supplied
module itself stored untouched as `local_model`. -/
theorem C7_meta_model_built_once (Input : Type) (m loaded : TModel)
    (custom : Bool) (children modules : List String) (prepared : Input) :
    (initCustom m).local_model = some m
    ∧ (initCustom m).metaTensors.all Tensor.isMeta = true
    ∧ (initFromRepo loaded).metaTensors.all Tensor.isMeta = true
    ∧ (initTrace Input custom children modules prepared).countP
        InitStep.isBuildMeta = 1 := by
  refine ⟨rfl, ?_, ?_, ?_⟩
  · simp [initCustom, ModelState.metaTensors, moduleWrap, toMetaModel,
      deepcopy, List.all_map, Function.comp, isMeta_toMeta]
  · simp [initFromRepo, ModelState.metaTensors, moduleWrap, toMetaModel,
      List.all_map, Function.comp, isMeta_toMeta]
  · simp [initTrace, List.countP_append, List.countP_cons, InitStep.isBuildMeta,
      countP_map_false InitStep.wrap_child InitStep.isBuildMeta (fun _ => rfl),
      countP_map_false InitStep.assign_module_path InitStep.isBuildMeta
        (fun _ => rfl)]

/-- Claim C8: `modulize` applies the wrapper-module edit to the meta model
before the graph edit, appends the wrapper-module edit to `self.edits`
before the graph edit, records exactly `[wrapper, graph]` in that order at
the end of `self.edits`, and a subsequent `__call__` with `edits=None`
applies exactly that recorded list. -/
theorem C8_modulize_records_in_order (se : List Edit)
    (module_path module_name : String) (gid : Nat) (d inf : Bool)
    (g : Graph) (o : Outcome) :
    Precedes (MStep.apply_edit (wmeFor module_path module_name))
        (MStep.apply_edit (geFor module_path gid))
        (modulizeTrace module_path module_name gid)
    ∧ Precedes (MStep.append_edit (wmeFor module_path module_name))
        (MStep.append_edit (geFor module_path gid))
        (modulizeTrace module_path module_name gid)
    ∧ modulizeEdits se module_path module_name gid
        = se ++ [Edit.wrapper module_path module_name, Edit.graph module_path gid]
    ∧ Step.editor_apply (modulizeEdits se module_path module_name gid)
        ∈ callTrace d none (modulizeEdits se module_path module_name gid)
            g inf o := by
  refine ⟨?_, ?_, rfl, ?_⟩
  · exact ⟨[], [MStep.add_graph_nodes],
      [MStep.append_edit (wmeFor module_path module_name),
       MStep.append_edit (geFor module_path gid)], rfl⟩
  · exact ⟨[MStep.apply_edit (wmeFor module_path module_name),
      MStep.add_graph_nodes, MStep.apply_edit (geFor module_path gid)],
      [], [], rfl⟩
  · simp [callTrace]

end NNSight
